import Mathlib

/-!
# Verification of the NHL play-by-play on-ice / Corsi pipeline

Shallow embedding of the core of the repository:

* `convert_time_to_seconds`, `get_players_on_ice`, `combine_pbp_with_shifts`
  from `nhl_ice_players_parser.py`;
* `analyze_player_corsi_5v5` (situation filter, per-player Corsi
  aggregation, percentage finalization, sorting, team columns) from
  `player_corsi_analysis.py`;
* the player-dictionary lookups from `create_player_dictionary.py`.

Python exceptions (`ValueError` from `int()`, `TypeError` from comparing
`None`, `IndexError` from indexing past the team list) are modelled by
`Except Unit`; a `pandas` missing value (`NaN` / `None`) is modelled by
`Option`.
-/

namespace NHLPBP

/-- Embedding of Python `str.split(sep)` for a one-character separator:
split at every occurrence, never merging; the empty string yields `[""]`.
(Structurally recursive over the character list.) -/
def pySplit (sep : Char) : List Char → List (List Char)
  | [] => [[]]
  | x :: xs =>
    let r := pySplit sep xs
    if x = sep then [] :: r
    else
      match r with
      | h :: t => (x :: h) :: t
      | [] => [[x]]

/-- Digit accumulator for `pyIntDigits`. -/
def pyIntDigitsAux : List Char → Nat → Option Nat
  | [], acc => some acc
  | c :: rest, acc =>
    if c.isDigit then pyIntDigitsAux rest (acc * 10 + (c.toNat - 48)) else none

/-- A non-empty all-digit character run read as a natural number;
`none` on the empty run or on any non-digit character. -/
def pyIntDigits : List Char → Option Nat
  | [] => none
  | c :: rest => pyIntDigitsAux (c :: rest) 0

/-- Embedding of Python `int(s)` on a string: an optional sign followed by
at least one digit.  (Python's `int` additionally tolerates surrounding
whitespace and underscores between digits; no claim depends on those
inputs.)  `none` models the `ValueError` raised on any other string. -/
def pyInt : List Char → Option Int
  | '-' :: rest => (pyIntDigits rest).map (fun n => -(n : Int))
  | '+' :: rest => (pyIntDigits rest).map (fun n => (n : Int))
  | l => (pyIntDigits l).map (fun n => (n : Int))

/-- Embedding of `convert_time_to_seconds` (`nhl_ice_players_parser.py`).
`.ok none` is Python `None` (the "absent" sentinel, returned for a missing
value and for a string that does not split into exactly two `:`-fields);
`.error ()` is the uncaught `ValueError` raised by `int()` when the string
has exactly two fields but one of them is not numeric. -/
def convert_time_to_seconds : Option String → Except Unit (Option Int)
  | none => .ok none
  | some s =>
    match pySplit ':' s.toList with
    | [minutes, seconds] =>
      match pyInt minutes, pyInt seconds with
      | some m, some sec => .ok (some (m * 60 + sec))
      | _, _ => .error ()
    | _ => .ok none

/-- One row of the shift table (`shiftcharts` data). -/
structure ShiftRow where
  playerId : Int
  teamAbbrev : String
  period : Int
  startTime : String
  endTime : String
  typeCode : Int
deriving DecidableEq, Repr

/-- The period filter followed by the optional team filter of
`get_players_on_ice` (`if team:` is false for `None` and for the empty
string). -/
def period_team_shifts (shifts : List ShiftRow) (period : Int)
    (team : Option String) : List ShiftRow :=
  let ps := shifts.filter (fun s => s.period == period)
  match team with
  | some t => if t = "" then ps else ps.filter (fun s => s.teamAbbrev == t)
  | none => ps

/-- Python's chained comparison `start < t <= end` over int-or-`None`
values: comparing `None` on either side of the first comparison raises
`TypeError`; the second comparison is evaluated (and can raise) only when
the first one holds. -/
def pyChainedLtLe : Option Int → Option Int → Option Int → Except Unit Bool
  | some a, some t, b? =>
    if a < t then
      match b? with
      | some b => .ok (decide (t ≤ b))
      | none => .error ()
    else .ok false
  | _, _, _ => .error ()

/-- The row loop of `get_players_on_ice`: skip goal pseudo-shifts
(`typeCode == 505`), parse the row's start and end clocks, and append the
row's `playerId` when `start < t <= end`. -/
def onIceLoop (t? : Option Int) : List ShiftRow → Except Unit (List Int)
  | [] => .ok []
  | s :: rest =>
    if s.typeCode == 505 then onIceLoop t? rest
    else do
      let a? ← convert_time_to_seconds (some s.startTime)
      let b? ← convert_time_to_seconds (some s.endTime)
      let c ← pyChainedLtLe a? t? b?
      let tail ← onIceLoop t? rest
      .ok (if c then s.playerId :: tail else tail)

/-- Embedding of `get_players_on_ice` (`nhl_ice_players_parser.py`). -/
def get_players_on_ice (shifts : List ShiftRow) (period : Int)
    (time_in_period : Option String) (team : Option String) :
    Except Unit (List Int) := do
  let t? ← convert_time_to_seconds time_in_period
  onIceLoop t? (period_team_shifts shifts period team)

/-- A raw play-by-play event, with `pandas` missing values as `Option`. -/
structure PlayEvent where
  periodNumber : Option Int
  timeInPeriod : Option String
  typeCode : Option Int
  situationCode : Option Int
  shootingPlayerId : Option Int
deriving DecidableEq, Repr

/-- A play-by-play event after `combine_pbp_with_shifts`: the source keeps
the on-ice lists as `str(list)` columns initialised to `None`; `some l`
stands for the string form of `l`, `none` for the untouched `None`. -/
structure EnrichedEvent where
  periodNumber : Option Int
  timeInPeriod : Option String
  typeCode : Option Int
  situationCode : Option Int
  shootingPlayerId : Option Int
  homePlayersOnIce : Option (List Int)
  awayPlayersOnIce : Option (List Int)
  homePlayersCount : Nat
  awayPlayersCount : Nat
deriving DecidableEq, Repr

/-- The per-row body of the enrichment loop of `combine_pbp_with_shifts`:
rows whose `timeInPeriod` or `periodNumber` is missing are skipped, keeping
the initialised `None` / `None` / `0` / `0` columns; otherwise the resolver
is queried once for each team. -/
def enrich_play (shifts : List ShiftRow) (home away : String)
    (p : PlayEvent) : Except Unit EnrichedEvent :=
  match p.timeInPeriod, p.periodNumber with
  | some t, some per => do
    let hp ← get_players_on_ice shifts per (some t) (some home)
    let ap ← get_players_on_ice shifts per (some t) (some away)
    .ok { periodNumber := p.periodNumber, timeInPeriod := p.timeInPeriod,
          typeCode := p.typeCode, situationCode := p.situationCode,
          shootingPlayerId := p.shootingPlayerId,
          homePlayersOnIce := some hp, awayPlayersOnIce := some ap,
          homePlayersCount := hp.length, awayPlayersCount := ap.length }
  | _, _ =>
    .ok { periodNumber := p.periodNumber, timeInPeriod := p.timeInPeriod,
          typeCode := p.typeCode, situationCode := p.situationCode,
          shootingPlayerId := p.shootingPlayerId,
          homePlayersOnIce := none, awayPlayersOnIce := none,
          homePlayersCount := 0, awayPlayersCount := 0 }

/-- Accumulator loop of `uniqueFirstSeen`: keep a value the first time it
is seen, skip later occurrences. -/
def uniqueFirstSeenAux (seen : List String) : List String → List String
  | [] => []
  | t :: rest =>
    if t ∈ seen then uniqueFirstSeenAux seen rest
    else t :: uniqueFirstSeenAux (t :: seen) rest

/-- `pandas.unique` order: first occurrence of each value, in stream order
(used for `shifts_df['teamAbbrev'].unique()`). -/
def uniqueFirstSeen (l : List String) : List String := uniqueFirstSeenAux [] l

/-- `shifts_df['teamAbbrev'].unique()[0]` — the "home" team heuristic. -/
def homeTeamOf (shifts : List ShiftRow) : Option String :=
  (uniqueFirstSeen (shifts.map (·.teamAbbrev))).get? 0

/-- `shifts_df['teamAbbrev'].unique()[1]` — the "away" team heuristic. -/
def awayTeamOf (shifts : List ShiftRow) : Option String :=
  (uniqueFirstSeen (shifts.map (·.teamAbbrev))).get? 1

/-- Embedding of the core transform of `combine_pbp_with_shifts`
(`nhl_ice_players_parser.py`), after the two fetches have materialised the
play list and the shift list.  Indexing `unique()` past its length
(`IndexError`) and any error escaping the row loop are `.error ()`. -/
def combine_pbp_with_shifts (shifts : List ShiftRow)
    (plays : List PlayEvent) : Except Unit (List EnrichedEvent) :=
  match homeTeamOf shifts, awayTeamOf shifts with
  | some home, some away => plays.mapM (enrich_play shifts home away)
  | _, _ => .error ()

/-! ## The Corsi analysis stage (`player_corsi_analysis.py`) -/

/-- `shot_attempt_events = [505, 506, 507, 508]` (goal, shot-on-goal,
missed-shot, blocked-shot). -/
def shot_attempt_events : List Int := [505, 506, 507, 508]

/-- The situation filter of `analyze_player_corsi_5v5`: shot-attempt type,
`situationCode == 1551`, and both derived on-ice counts equal to 6.
A missing (`NaN`) `typeCode` or `situationCode` compares unequal, as in
`pandas`. -/
def corsiFilterPred (e : EnrichedEvent) : Bool :=
  (match e.typeCode with
   | some c => shot_attempt_events.contains c
   | none => false)
  && e.situationCode == some 1551
  && e.homePlayersCount == 6
  && e.awayPlayersCount == 6

/-- `corsi_events`: the rows of the play-by-play table passing the
situation filter, in table order. -/
def corsi_events (evs : List EnrichedEvent) : List EnrichedEvent :=
  evs.filter corsiFilterPred

/-- One value of the `player_stats` dictionary. -/
structure PStats where
  CF : Nat
  CA : Nat
  TOI_events : Nat
deriving DecidableEq, Repr

/-- The record created on first sighting of a player. -/
def PStats.zero : PStats := ⟨0, 0, 0⟩

/-- `CF += 1` followed by `TOI_events += 1`. -/
def addCF (s : PStats) : PStats :=
  { s with CF := s.CF + 1, TOI_events := s.TOI_events + 1 }

/-- `CA += 1` followed by `TOI_events += 1`. -/
def addCA (s : PStats) : PStats :=
  { s with CA := s.CA + 1, TOI_events := s.TOI_events + 1 }

/-- The `player_stats` Python dict, as an insertion-ordered association
list with unique keys (Python dicts preserve insertion order). -/
abbrev StatsMap := List (Int × PStats)

/-- Update the entry of key `pid` in place, creating a zeroed entry at the
end on first sighting — exactly the
`if player_id not in player_stats: ... ; player_stats[player_id] ... += 1`
idiom. -/
def updateStat : StatsMap → Int → (PStats → PStats) → StatsMap
  | [], pid, f => [(pid, f PStats.zero)]
  | e :: rest, pid, f =>
    if e.1 = pid then (e.1, f e.2) :: rest else e :: updateStat rest pid f

/-- Which team took the shot. -/
inductive Side where
  | home
  | away
deriving DecidableEq, Repr

/-- The home on-ice list carried by an enriched event.  In the source the
column holds `str(list)` and is parsed back with `ast.literal_eval`; every
event passing the situation filter carries a materialised list (its count
is 6), so the missing case defaults to the empty list. -/
def evHome (e : EnrichedEvent) : List Int := e.homePlayersOnIce.getD []

/-- The away on-ice list carried by an enriched event (see `evHome`). -/
def evAway (e : EnrichedEvent) : List Int := e.awayPlayersOnIce.getD []

/-- Shooting-team determination of `analyze_player_corsi_5v5`: a missing
`shootingPlayerId`, or a shooter found in neither on-ice list, leaves
`shooting_team = None` and the event is skipped. -/
def shooting_team (e : EnrichedEvent) : Option Side :=
  match e.shootingPlayerId with
  | none => none
  | some sid =>
    if (evHome e).contains sid then some Side.home
    else if (evAway e).contains sid then some Side.away
    else none

/-- One `for player_id in players` crediting loop: the players of side
`side` get `CF` when their side took the shot and `CA` otherwise, and
always `TOI_events += 1`. -/
def creditSide (side shooting : Side) (st : StatsMap) (pids : List Int) :
    StatsMap :=
  pids.foldl
    (fun acc pid => updateStat acc pid (if side = shooting then addCF else addCA))
    st

/-- The body of the event loop of `analyze_player_corsi_5v5`: skip the
event when the shooting team cannot be determined, else run the home
crediting loop and then the away crediting loop. -/
def processEvent (st : StatsMap) (e : EnrichedEvent) : StatsMap :=
  match shooting_team e with
  | none => st
  | some sh => creditSide Side.away sh (creditSide Side.home sh st (evHome e)) (evAway e)

/-- The full aggregation pass, from the empty `player_stats` dict. -/
def aggregateStats (evs : List EnrichedEvent) : StatsMap :=
  evs.foldl processEvent []

/-- Embedding of Python `round(x, 1)` on the exact rational value. -/
def round1 (x : ℚ) : ℚ := (round (10 * x) : ℤ) / 10

/-- One value of the player dictionary (`create_player_dictionary.py`):
`fullName` and `team` (`teamAbbrev`). -/
structure PlayerInfo where
  fullName : String
  team : String
deriving DecidableEq, Repr

/-- The player dictionary, keys unique (a Python dict keyed by int ids). -/
abbrev PlayerDict := List (Int × PlayerInfo)

/-- `player_dict.get(player_id)`. -/
def dictGet (d : PlayerDict) (pid : Int) : Option PlayerInfo :=
  (d.find? (fun e => e.1 == pid)).map (·.2)

/-- Embedding of `get_player_name` (`create_player_dictionary.py`). -/
def get_player_name (pid : Int) (d : PlayerDict) : String :=
  ((dictGet d pid).map (·.fullName)).getD "Unknown Player"

/-- One row of the intermediate `results` table of
`analyze_player_corsi_5v5` (before the team columns are added). -/
structure CorsiRow where
  playerId : Int
  playerName : String
  CF : Nat
  CA : Nat
  CF_plus_CA : Nat
  Corsi_pct : ℚ
  TOI_events : Nat
deriving DecidableEq, Repr

/-- Building one `results` row from a `player_stats` entry:
`corsi_pct = cf / total * 100 if total > 0 else 0`, then `round(_, 1)`. -/
def mkRow (d : PlayerDict) (e : Int × PStats) : CorsiRow :=
  let cf := e.2.CF
  let ca := e.2.CA
  let total := cf + ca
  let pct : ℚ := if total > 0 then (cf : ℚ) / (total : ℚ) * 100 else 0
  { playerId := e.1, playerName := get_player_name e.1 d, CF := cf, CA := ca,
    CF_plus_CA := total, Corsi_pct := round1 pct, TOI_events := e.2.TOI_events }

/-- The sort key relation of `sort_values('Corsi_pct', ...)`. -/
def rowLE (a b : CorsiRow) : Prop := a.Corsi_pct ≤ b.Corsi_pct

instance : DecidableRel rowLE := fun a b =>
  inferInstanceAs (Decidable (a.Corsi_pct ≤ b.Corsi_pct))

instance : IsTotal CorsiRow rowLE := ⟨fun a b => le_total a.Corsi_pct b.Corsi_pct⟩

instance : IsTrans CorsiRow rowLE := ⟨fun _ _ _ => le_trans⟩

/-- Embedding of `corsi_df.sort_values('Corsi_pct', ascending=False)`:
`pandas` computes an ascending argsort of the key column and reverses the
indexer when `ascending=False`; at this table size the underlying `numpy`
argsort is a stable insertion sort, so the result is the reverse of a
stable ascending sort. -/
def sort_values_desc (l : List CorsiRow) : List CorsiRow :=
  (List.insertionSort rowLE l).reverse

/-- A finalized output row, with the `team` and `Corsi_rel` columns.
A player missing from the dictionary gets a `NaN` team and (because the
`groupby` mean is joined back over the team key) a `NaN` `Corsi_rel`;
both are modelled by `none`. -/
structure CorsiRowFinal where
  playerId : Int
  playerName : String
  team : Option String
  CF : Nat
  CA : Nat
  CF_plus_CA : Nat
  Corsi_pct : ℚ
  Corsi_rel : Option ℚ
  TOI_events : Nat
deriving DecidableEq, Repr

/-- The `team_info` mapping applied to a player id:
`corsi_df['playerId'].map(team_info)`. -/
def teamOf (d : PlayerDict) (pid : Int) : Option String :=
  (dictGet d pid).map (·.team)

/-- `corsi_df.groupby('team')['Corsi_pct'].mean()` for one team key. -/
def team_avg (rows : List CorsiRow) (d : PlayerDict) (tm : String) : ℚ :=
  let mem := rows.filter (fun r => teamOf d r.playerId == some tm)
  (mem.map (·.Corsi_pct)).sum / (mem.length : ℚ)

/-- Adding the `team`, `team_avg_corsi` and
`Corsi_rel = round(Corsi_pct - team_avg_corsi, 1)` columns to one row. -/
def addTeamCols (rows : List CorsiRow) (d : PlayerDict) (r : CorsiRow) :
    CorsiRowFinal :=
  let tm := teamOf d r.playerId
  { playerId := r.playerId, playerName := r.playerName, team := tm,
    CF := r.CF, CA := r.CA, CF_plus_CA := r.CF_plus_CA,
    Corsi_pct := r.Corsi_pct,
    Corsi_rel := tm.map (fun t => round1 (r.Corsi_pct - team_avg rows d t)),
    TOI_events := r.TOI_events }

/-- Embedding of `analyze_player_corsi_5v5` (`player_corsi_analysis.py`)
downstream of the CSV/JSON loads: filter, aggregate, build the results
rows, sort by `Corsi_pct` descending, then add the team columns (the team
averages are computed over the full sorted table). -/
def analyze_player_corsi_5v5 (evs : List EnrichedEvent) (d : PlayerDict) :
    List CorsiRowFinal :=
  let stats := aggregateStats (corsi_events evs)
  let rows := stats.map (mkRow d)
  let sorted := sort_values_desc rows
  sorted.map (addTeamCols sorted d)

/-! ## Characterization of the presence query -/

/-- The parsed (start, end) seconds of a shift row, when both clocks parse
to a value. -/
def rowTimes (s : ShiftRow) : Option (Int × Int) :=
  match convert_time_to_seconds (some s.startTime),
        convert_time_to_seconds (some s.endTime) with
  | .ok (some a), .ok (some b) => some (a, b)
  | _, _ => none

/-- The boundary predicate of one shift row at query time `t`:
`start < t ≤ end` on the parsed clocks. -/
def rowCovers (s : ShiftRow) (t : Int) : Bool :=
  match rowTimes s with
  | some (a, b) => decide (a < t ∧ t ≤ b)
  | none => false

lemma pyChainedLtLe_some (a t b : Int) :
    pyChainedLtLe (some a) (some t) (some b) = .ok (decide (a < t ∧ t ≤ b)) := by
  by_cases h : a < t <;> simp [pyChainedLtLe, h]

lemma rowTimes_eq_some {s : ShiftRow} {a b : Int}
    (ha : convert_time_to_seconds (some s.startTime) = .ok (some a))
    (hb : convert_time_to_seconds (some s.endTime) = .ok (some b)) :
    rowTimes s = some (a, b) := by
  unfold rowTimes
  rw [ha, hb]

lemma rowTimes_isSome_elim {s : ShiftRow} (h : (rowTimes s).isSome) :
    ∃ a b, convert_time_to_seconds (some s.startTime) = .ok (some a) ∧
      convert_time_to_seconds (some s.endTime) = .ok (some b) ∧
      rowTimes s = some (a, b) := by
  unfold rowTimes at h
  split at h
  case _ a b hs he => exact ⟨a, b, hs, he, rowTimes_eq_some hs he⟩
  case _ => simp at h

/-- `bind` on an `Except Unit` success reduces to the continuation. -/
lemma exceptOkBind {α β : Type} (a : α) (f : α → Except Unit β) :
    ((Except.ok a : Except Unit α) >>= f) = f a := rfl

/-- The row loop keeps one entry, in row order, for every non-goal row
whose parsed interval satisfies `start < t ≤ end`. -/
lemma onIceLoop_char (t : Int) (l : List ShiftRow)
    (hp : ∀ s ∈ l, s.typeCode ≠ 505 → (rowTimes s).isSome) :
    onIceLoop (some t) l =
      .ok ((l.filter (fun s => !(s.typeCode == 505) && rowCovers s t)).map (·.playerId)) := by
  induction l with
  | nil => rfl
  | cons s rest ih =>
    have hrest : ∀ x ∈ rest, x.typeCode ≠ 505 → (rowTimes x).isSome :=
      fun x hx => hp x (List.mem_cons_of_mem _ hx)
    by_cases h505 : s.typeCode = 505
    · simp only [onIceLoop, h505, List.filter_cons]
      simp [ih hrest]
    · obtain ⟨a, b, ha, hb, hab⟩ :=
        rowTimes_isSome_elim (hp s (List.mem_cons_self _ _) h505)
      have h505b : (s.typeCode == 505) = false := by
        simp [h505]
      simp only [onIceLoop, h505b, Bool.false_eq_true, if_false]
      rw [ha]
      rw [exceptOkBind]
      rw [hb]
      rw [exceptOkBind]
      rw [pyChainedLtLe_some, exceptOkBind]
      rw [ih hrest, exceptOkBind]
      simp only [List.filter_cons, h505b, Bool.not_false, Bool.true_and]
      have hcov : rowCovers s t = decide (a < t ∧ t ≤ b) := by
        unfold rowCovers
        rw [hab]
      rw [hcov]
      by_cases hc : a < t ∧ t ≤ b <;> simp [hc]

/-- Full characterization of `get_players_on_ice` when the query clock and
every relevant shift clock parse: the result lists the `playerId` of every
non-goal row of the (period, team) group covering the query time, one
entry per row, in row order. -/
lemma get_players_on_ice_char (shifts : List ShiftRow) (period : Int)
    (tstr : String) (team : Option String) (tv : Int)
    (ht : convert_time_to_seconds (some tstr) = .ok (some tv))
    (hp : ∀ s ∈ period_team_shifts shifts period team,
        s.typeCode ≠ 505 → (rowTimes s).isSome) :
    get_players_on_ice shifts period (some tstr) team =
      .ok (((period_team_shifts shifts period team).filter
        (fun s => !(s.typeCode == 505) && rowCovers s tv)).map (·.playerId)) := by
  unfold get_players_on_ice
  rw [ht, exceptOkBind]
  exact onIceLoop_char tv _ hp

/-! ## Enrichment lemmas -/

/-- A successful `mapM` over `Except` succeeds pointwise, preserving
length and position. -/
lemma mapM_ok_pointwise {α β : Type} (f : α → Except Unit β) :
    ∀ (l : List α) (out : List β), l.mapM f = .ok out →
      out.length = l.length ∧
      ∀ k (hk : k < l.length) (hk' : k < out.length),
        f (l.get ⟨k, hk⟩) = .ok (out.get ⟨k, hk'⟩) := by
  intro l
  induction l with
  | nil =>
    intro out h
    rw [List.mapM_nil] at h
    cases h
    exact ⟨rfl, fun k hk => absurd hk (Nat.not_lt_zero k)⟩
  | cons a rest ih =>
    intro out h
    rw [List.mapM_cons] at h
    rcases hfa : f a with e | b
    · rw [hfa] at h
      exact absurd h (by simp [Bind.bind, Except.bind])
    · rw [hfa, exceptOkBind] at h
      rcases hrest : rest.mapM f with e | tail
      · rw [hrest] at h
        exact absurd h (by simp [Bind.bind, Except.bind])
      · rw [hrest, exceptOkBind] at h
        cases h
        obtain ⟨hlen, hpt⟩ := ih tail hrest
        refine ⟨by simpa using hlen, ?_⟩
        intro k hk hk'
        match k with
        | 0 => simpa using hfa
        | (k + 1) =>
          exact hpt k (Nat.lt_of_succ_lt_succ hk) (Nat.lt_of_succ_lt_succ hk')

/-- The record produced for a play missing its clock or its period. -/
lemma enrich_play_absent (shifts : List ShiftRow) (home away : String)
    (p : PlayEvent) (h : p.timeInPeriod = none ∨ p.periodNumber = none) :
    enrich_play shifts home away p =
      .ok { periodNumber := p.periodNumber, timeInPeriod := p.timeInPeriod,
            typeCode := p.typeCode, situationCode := p.situationCode,
            shootingPlayerId := p.shootingPlayerId,
            homePlayersOnIce := none, awayPlayersOnIce := none,
            homePlayersCount := 0, awayPlayersCount := 0 } := by
  rcases ht : p.timeInPeriod with _ | t <;> rcases hp : p.periodNumber with _ | per <;>
    simp only [enrich_play, ht, hp]
  rcases h with h | h
  · rw [ht] at h; cases h
  · rw [hp] at h; cases h

/-! ## Situation-filter lemmas -/

/-- The four conditions of the situation filter, as a proposition. -/
lemma corsiFilterPred_iff (e : EnrichedEvent) :
    corsiFilterPred e = true ↔
      ((∃ c, e.typeCode = some c ∧ c ∈ shot_attempt_events) ∧
        e.situationCode = some 1551 ∧
        e.homePlayersCount = 6 ∧ e.awayPlayersCount = 6) := by
  unfold corsiFilterPred
  rcases htc : e.typeCode with _ | c
  · simp
  · simp [htc, and_assoc]

/-! ## Aggregation-state lemmas -/

/-- The statistics recorded for a player: the stored entry, or the zeroed
record for a player not yet sighted. -/
def statsOf (st : StatsMap) (pid : Int) : PStats :=
  ((st.find? (fun e => e.1 == pid)).map (·.2)).getD PStats.zero

lemma statsOf_cons (k : Int) (v : PStats) (rest : StatsMap) (q : Int) :
    statsOf ((k, v) :: rest) q = if k = q then v else statsOf rest q := by
  by_cases h : k = q
  · simp [statsOf, List.find?_cons_of_pos, h]
  · have : ((k, v).1 == q) = false := by simp [h]
    simp [statsOf, List.find?_cons_of_neg, this, h]

lemma statsOf_nil (q : Int) : statsOf [] q = PStats.zero := rfl

lemma statsOf_updateStat (st : StatsMap) (pid q : Int) (f : PStats → PStats) :
    statsOf (updateStat st pid f) q =
      if q = pid then f (statsOf st pid) else statsOf st q := by
  induction st with
  | nil =>
    by_cases h : q = pid
    · subst h
      simp [updateStat, statsOf_cons, statsOf_nil]
    · have h' : ¬ pid = q := fun hh => h hh.symm
      simp [updateStat, statsOf_cons, statsOf_nil, h, h']
  | cons e rest ih =>
    obtain ⟨k, v⟩ := e
    by_cases hk : k = pid
    · subst hk
      simp only [updateStat, if_pos rfl]
      by_cases hq : q = k
      · subst hq
        simp [statsOf_cons]
      · have hq' : ¬ k = q := fun hh => hq hh.symm
        simp [statsOf_cons, hq, hq']
    · simp only [updateStat, if_neg hk]
      by_cases hq : q = k
      · have hqpid : ¬ q = pid := by rw [hq]; exact hk
        have hkq : k = q := hq.symm
        simp [statsOf_cons, hkq, hqpid]
      · have hq' : ¬ k = q := fun hh => hq hh.symm
        simp [statsOf_cons, hq', ih, hk]

/-- Sum of one projected statistic over the entries of the roster `R`. -/
def sumProj (g : PStats → Nat) (st : StatsMap) (R : List Int) : Nat :=
  ((st.filter (fun e => decide (e.1 ∈ R))).map (fun e => g e.2)).sum

/-- Total Corsi-for credited to players of the roster `R`. -/
def sumCF (st : StatsMap) (R : List Int) : Nat := sumProj (·.CF) st R

/-- Total Corsi-against credited to players of the roster `R`. -/
def sumCA (st : StatsMap) (R : List Int) : Nat := sumProj (·.CA) st R

lemma sumProj_cons (g : PStats → Nat) (k : Int) (v : PStats) (rest : StatsMap)
    (R : List Int) :
    sumProj g ((k, v) :: rest) R =
      (if k ∈ R then g v else 0) + sumProj g rest R := by
  by_cases h : k ∈ R <;> simp [sumProj, List.filter_cons, h]

lemma sumProj_updateStat (g : PStats → Nat) (f : PStats → PStats) (d : Nat)
    (hf : ∀ s, g (f s) = g s + d) (hz : g PStats.zero = 0)
    (st : StatsMap) (pid : Int) (R : List Int) :
    sumProj g (updateStat st pid f) R =
      sumProj g st R + (if pid ∈ R then d else 0) := by
  induction st with
  | nil =>
    show sumProj g [(pid, f PStats.zero)] R = _
    rw [sumProj_cons]
    by_cases h : pid ∈ R <;> simp [sumProj, h, hf, hz]
  | cons e rest ih =>
    obtain ⟨k, v⟩ := e
    by_cases hk : k = pid
    · subst hk
      have hupd : updateStat ((k, v) :: rest) k f = (k, f v) :: rest := by
        simp [updateStat]
      rw [hupd, sumProj_cons, sumProj_cons, hf]
      by_cases h : k ∈ R <;> simp [h] <;> omega
    · have hupd : updateStat ((k, v) :: rest) pid f = (k, v) :: updateStat rest pid f := by
        simp [updateStat, hk]
      rw [hupd, sumProj_cons, sumProj_cons, ih]
      omega

lemma sumProj_creditFold (g : PStats → Nat) (f : PStats → PStats) (d : Nat)
    (hf : ∀ s, g (f s) = g s + d) (hz : g PStats.zero = 0) (pids : List Int) :
    ∀ (st : StatsMap) (R : List Int),
      sumProj g (pids.foldl (fun acc pid => updateStat acc pid f) st) R =
        sumProj g st R + d * (pids.filter (fun p => decide (p ∈ R))).length := by
  induction pids with
  | nil => intro st R; simp
  | cons p rest ih =>
    intro st R
    simp only [List.foldl_cons, List.filter_cons]
    rw [ih]
    rw [sumProj_updateStat g f d hf hz]
    by_cases h : p ∈ R <;> simp [h, Nat.mul_succ] <;> omega

lemma statsOf_creditFold_not_mem (f : PStats → PStats) (pids : List Int) :
    ∀ (st : StatsMap) (q : Int), q ∉ pids →
      statsOf (pids.foldl (fun acc pid => updateStat acc pid f) st) q =
        statsOf st q := by
  induction pids with
  | nil => intro st q _; rfl
  | cons p rest ih =>
    intro st q hq
    simp only [List.foldl_cons]
    rw [ih _ _ (fun h => hq (List.mem_cons_of_mem _ h))]
    rw [statsOf_updateStat]
    have hqp : ¬ q = p := fun h => hq (h ▸ List.mem_cons_self _ _)
    simp [hqp]

lemma statsOf_creditFold_mem (f : PStats → PStats) (pids : List Int) :
    ∀ (st : StatsMap) (q : Int), pids.Nodup → q ∈ pids →
      statsOf (pids.foldl (fun acc pid => updateStat acc pid f) st) q =
        f (statsOf st q) := by
  induction pids with
  | nil => intro st q _ hq; cases hq
  | cons p rest ih =>
    intro st q hnd hq
    have hnd' := List.nodup_cons.mp hnd
    simp only [List.foldl_cons]
    by_cases hqp : q = p
    · subst hqp
      rw [statsOf_creditFold_not_mem f rest _ _ hnd'.1]
      rw [statsOf_updateStat]
      simp
    · rcases List.mem_cons.mp hq with h | h
      · exact absurd h hqp
      · rw [ih _ _ hnd'.2 h, statsOf_updateStat]
        simp [hqp]

lemma sumCF_creditFold_addCF (pids : List Int) (st : StatsMap) (R : List Int) :
    sumCF (pids.foldl (fun acc pid => updateStat acc pid addCF) st) R =
      sumCF st R + (pids.filter (fun p => decide (p ∈ R))).length := by
  simpa using sumProj_creditFold (·.CF) addCF 1 (fun s => rfl) rfl pids st R

lemma sumCF_creditFold_addCA (pids : List Int) (st : StatsMap) (R : List Int) :
    sumCF (pids.foldl (fun acc pid => updateStat acc pid addCA) st) R =
      sumCF st R := by
  simpa using sumProj_creditFold (·.CF) addCA 0 (fun s => by simp [addCA]) rfl pids st R

lemma sumCA_creditFold_addCA (pids : List Int) (st : StatsMap) (R : List Int) :
    sumCA (pids.foldl (fun acc pid => updateStat acc pid addCA) st) R =
      sumCA st R + (pids.filter (fun p => decide (p ∈ R))).length := by
  simpa using sumProj_creditFold (·.CA) addCA 1 (fun s => rfl) rfl pids st R

lemma sumCA_creditFold_addCF (pids : List Int) (st : StatsMap) (R : List Int) :
    sumCA (pids.foldl (fun acc pid => updateStat acc pid addCF) st) R =
      sumCA st R := by
  simpa using sumProj_creditFold (·.CA) addCF 0 (fun s => by simp [addCF]) rfl pids st R

lemma creditSide_same (sh : Side) (st : StatsMap) (pids : List Int) :
    creditSide sh sh st pids =
      pids.foldl (fun acc pid => updateStat acc pid addCF) st := by
  simp [creditSide]

lemma creditSide_other (side sh : Side) (hne : side ≠ sh) (st : StatsMap)
    (pids : List Int) :
    creditSide side sh st pids =
      pids.foldl (fun acc pid => updateStat acc pid addCA) st := by
  simp [creditSide, hne]

/-- How one processed event moves the roster-level CF/CA totals: the
shooting side's on-ice list adds its length to its roster's CF total and
to the opposing roster's CA total; a skipped event moves nothing. -/
lemma processEvent_sums (e : EnrichedEvent) (H A : List Int)
    (hdis : ∀ x, x ∈ H → x ∈ A → False)
    (hH : ∀ x ∈ evHome e, x ∈ H) (hA : ∀ x ∈ evAway e, x ∈ A)
    (st : StatsMap) :
    sumCF (processEvent st e) H =
      sumCF st H + (if shooting_team e = some Side.home then (evHome e).length else 0)
    ∧ sumCA (processEvent st e) A =
      sumCA st A + (if shooting_team e = some Side.home then (evAway e).length else 0)
    ∧ sumCF (processEvent st e) A =
      sumCF st A + (if shooting_team e = some Side.away then (evAway e).length else 0)
    ∧ sumCA (processEvent st e) H =
      sumCA st H + (if shooting_team e = some Side.away then (evHome e).length else 0) := by
  have hHfull : ((evHome e).filter (fun p => decide (p ∈ H))).length = (evHome e).length := by
    rw [List.filter_eq_self.mpr (fun a ha => by simpa using hH a ha)]
  have hAfull : ((evAway e).filter (fun p => decide (p ∈ A))).length = (evAway e).length := by
    rw [List.filter_eq_self.mpr (fun a ha => by simpa using hA a ha)]
  have hHaway : ((evAway e).filter (fun p => decide (p ∈ H))).length = 0 := by
    rw [List.filter_eq_nil.mpr (fun a ha => by simpa using fun hm => hdis a hm (hA a ha))]
    rfl
  have hAhome : ((evHome e).filter (fun p => decide (p ∈ A))).length = 0 := by
    rw [List.filter_eq_nil.mpr (fun a ha => by simpa using fun hm => hdis a (hH a ha) hm)]
    rfl
  rcases hst : shooting_team e with _ | side
  · simp [processEvent, hst]
  · cases side
    · simp only [processEvent, hst,
        creditSide_same Side.home, creditSide_other Side.away Side.home (by decide)]
      refine ⟨?_, ?_, ?_, ?_⟩ <;>
        simp [sumCF_creditFold_addCF, sumCF_creditFold_addCA,
          sumCA_creditFold_addCA, sumCA_creditFold_addCF,
          hHfull, hAfull, hHaway, hAhome]
    · simp only [processEvent, hst,
        creditSide_same Side.away, creditSide_other Side.home Side.away (by decide)]
      refine ⟨?_, ?_, ?_, ?_⟩ <;>
        simp [sumCF_creditFold_addCF, sumCF_creditFold_addCA,
          sumCA_creditFold_addCA, sumCA_creditFold_addCF,
          hHfull, hAfull, hHaway, hAhome]

/-- `CF + CA = TOI_events` is preserved by one dictionary update whose
transformer preserves it. -/
lemma cfca_updateStat (st : StatsMap) (pid : Int) (f : PStats → PStats)
    (hf : ∀ s, s.CF + s.CA = s.TOI_events → (f s).CF + (f s).CA = (f s).TOI_events)
    (h : ∀ p ∈ st, p.2.CF + p.2.CA = p.2.TOI_events) :
    ∀ p ∈ updateStat st pid f, p.2.CF + p.2.CA = p.2.TOI_events := by
  induction st with
  | nil =>
    intro p hp
    simp only [updateStat, List.mem_singleton] at hp
    subst hp
    exact hf PStats.zero (by decide)
  | cons e rest ih =>
    intro p hp
    by_cases hk : e.1 = pid
    · simp only [updateStat, if_pos hk] at hp
      rcases List.mem_cons.mp hp with h1 | h1
      · subst h1
        exact hf e.2 (h e (List.mem_cons_self _ _))
      · exact h p (List.mem_cons_of_mem _ h1)
    · simp only [updateStat, if_neg hk] at hp
      rcases List.mem_cons.mp hp with h1 | h1
      · subst h1
        exact h p (List.mem_cons_self _ _)
      · exact ih (fun q hq => h q (List.mem_cons_of_mem _ hq)) p h1

lemma cfca_creditFold (f : PStats → PStats)
    (hf : ∀ s, s.CF + s.CA = s.TOI_events → (f s).CF + (f s).CA = (f s).TOI_events)
    (pids : List Int) :
    ∀ (st : StatsMap), (∀ p ∈ st, p.2.CF + p.2.CA = p.2.TOI_events) →
      ∀ p ∈ pids.foldl (fun acc pid => updateStat acc pid f) st,
        p.2.CF + p.2.CA = p.2.TOI_events := by
  induction pids with
  | nil => intro st h; exact h
  | cons q rest ih =>
    intro st h
    simp only [List.foldl_cons]
    exact ih _ (cfca_updateStat st q f hf h)

lemma cfca_processEvent (e : EnrichedEvent) (st : StatsMap)
    (h : ∀ p ∈ st, p.2.CF + p.2.CA = p.2.TOI_events) :
    ∀ p ∈ processEvent st e, p.2.CF + p.2.CA = p.2.TOI_events := by
  have hCF : ∀ s : PStats, s.CF + s.CA = s.TOI_events →
      (addCF s).CF + (addCF s).CA = (addCF s).TOI_events := by
    intro s hs; simp [addCF]; omega
  have hCA : ∀ s : PStats, s.CF + s.CA = s.TOI_events →
      (addCA s).CF + (addCA s).CA = (addCA s).TOI_events := by
    intro s hs; simp [addCA]; omega
  have hite : ∀ (c : Prop) [Decidable c] (s : PStats), s.CF + s.CA = s.TOI_events →
      ((if c then addCF else addCA) s).CF + ((if c then addCF else addCA) s).CA =
        ((if c then addCF else addCA) s).TOI_events := by
    intro c _ s hs
    by_cases hc : c <;> simp [hc, hCF s hs, hCA s hs]
  rcases hst : shooting_team e with _ | side
  · simpa [processEvent, hst] using h
  · simp only [processEvent, hst]
    exact cfca_creditFold _ (hite _) (evAway e) _
      (cfca_creditFold _ (hite _) (evHome e) st h)

lemma cfca_aggregate (evs : List EnrichedEvent) :
    ∀ p ∈ aggregateStats evs, p.2.CF + p.2.CA = p.2.TOI_events := by
  have aux : ∀ (l : List EnrichedEvent) (st : StatsMap),
      (∀ p ∈ st, p.2.CF + p.2.CA = p.2.TOI_events) →
      ∀ p ∈ l.foldl processEvent st, p.2.CF + p.2.CA = p.2.TOI_events := by
    intro l
    induction l with
    | nil => intro st h; exact h
    | cons e rest ih =>
      intro st h
      simp only [List.foldl_cons]
      exact ih _ (cfca_processEvent e st h)
  exact aux evs [] (by simp)

/-- Per-player effect of one processed event: each player of the home
list gets the home-side transformer applied once, each player of the away
list the away-side transformer, and everyone else is untouched. -/
lemma processEvent_statsOf (e : EnrichedEvent) (st : StatsMap) (sh : Side)
    (hst : shooting_team e = some sh)
    (hndH : (evHome e).Nodup) (hndA : (evAway e).Nodup)
    (hdisEv : ∀ x, x ∈ evHome e → x ∈ evAway e → False) :
    (∀ pid ∈ evHome e,
      statsOf (processEvent st e) pid =
        (if Side.home = sh then addCF else addCA) (statsOf st pid))
    ∧ (∀ pid ∈ evAway e,
      statsOf (processEvent st e) pid =
        (if Side.away = sh then addCF else addCA) (statsOf st pid))
    ∧ (∀ pid, pid ∉ evHome e → pid ∉ evAway e →
      statsOf (processEvent st e) pid = statsOf st pid) := by
  have hunfold : processEvent st e =
      (evAway e).foldl
        (fun acc pid => updateStat acc pid (if Side.away = sh then addCF else addCA))
        ((evHome e).foldl
          (fun acc pid => updateStat acc pid (if Side.home = sh then addCF else addCA)) st) := by
    simp [processEvent, hst, creditSide]
  refine ⟨?_, ?_, ?_⟩
  · intro pid hpid
    have hnA : pid ∉ evAway e := fun hm => hdisEv pid hpid hm
    rw [hunfold, statsOf_creditFold_not_mem _ _ _ _ hnA,
      statsOf_creditFold_mem _ _ _ _ hndH hpid]
  · intro pid hpid
    have hnH : pid ∉ evHome e := fun hm => hdisEv pid hm hpid
    rw [hunfold, statsOf_creditFold_mem _ _ _ _ hndA hpid,
      statsOf_creditFold_not_mem _ _ _ _ hnH]
  · intro pid hnH hnA
    rw [hunfold, statsOf_creditFold_not_mem _ _ _ _ hnA,
      statsOf_creditFold_not_mem _ _ _ _ hnH]

/-- The zero-sum bookkeeping invariant over a fold of events whose home
and away lists have equal length and stay within the disjoint rosters. -/
lemma zeroSum_fold (H A : List Int) (hdis : ∀ x, x ∈ H → x ∈ A → False)
    (l : List EnrichedEvent)
    (hl : ∀ e ∈ l, (∀ x ∈ evHome e, x ∈ H) ∧ (∀ x ∈ evAway e, x ∈ A) ∧
      (evHome e).length = (evAway e).length) :
    ∀ (st : StatsMap),
      sumCF st H = sumCA st A ∧ sumCF st A = sumCA st H →
      sumCF (l.foldl processEvent st) H = sumCA (l.foldl processEvent st) A ∧
      sumCF (l.foldl processEvent st) A = sumCA (l.foldl processEvent st) H := by
  induction l with
  | nil => intro st h; exact h
  | cons e rest ih =>
    intro st h
    obtain ⟨hH, hA, hlen⟩ := hl e (List.mem_cons_self _ _)
    obtain ⟨h1, h2, h3, h4⟩ := processEvent_sums e H A hdis hH hA st
    simp only [List.foldl_cons]
    refine ih (fun x hx => hl x (List.mem_cons_of_mem _ hx)) _ ⟨?_, ?_⟩
    · rw [h1, h2, h.1, hlen]
    · rw [h3, h4, h.2, hlen]

/-! ## Finalization lemmas -/

lemma round1_zero : round1 0 = 0 := by
  norm_num [round1, round_eq]

lemma mem_sort_values_desc (r : CorsiRow) (l : List CorsiRow) :
    r ∈ sort_values_desc l ↔ r ∈ l := by
  unfold sort_values_desc
  rw [List.mem_reverse]
  exact (List.perm_insertionSort rowLE l).mem_iff

lemma addTeamCols_numeric (rows : List CorsiRow) (d : PlayerDict) (r : CorsiRow) :
    (addTeamCols rows d r).playerId = r.playerId ∧
    (addTeamCols rows d r).CF = r.CF ∧
    (addTeamCols rows d r).CA = r.CA ∧
    (addTeamCols rows d r).CF_plus_CA = r.CF_plus_CA ∧
    (addTeamCols rows d r).Corsi_pct = r.Corsi_pct ∧
    (addTeamCols rows d r).TOI_events = r.TOI_events := by
  simp [addTeamCols]

/-- Any member of the finalized table is built by `addTeamCols` from a
`results` row, which in turn is `mkRow` of a `player_stats` entry. -/
lemma analyze_mem_elim (evs : List EnrichedEvent) (d : PlayerDict)
    (r : CorsiRowFinal) (h : r ∈ analyze_player_corsi_5v5 evs d) :
    ∃ p ∈ aggregateStats (corsi_events evs),
      r.CF = p.2.CF ∧ r.CA = p.2.CA ∧
      r.Corsi_pct = round1 (if p.2.CF + p.2.CA > 0 then
        (p.2.CF : ℚ) / ((p.2.CF + p.2.CA : ℕ) : ℚ) * 100 else 0) := by
  unfold analyze_player_corsi_5v5 at h
  rcases List.mem_map.mp h with ⟨r0, hr0, rfl⟩
  rcases List.mem_map.mp ((mem_sort_values_desc r0 _).mp hr0) with ⟨p, hp, rfl⟩
  exact ⟨p, hp, by simp [addTeamCols, mkRow]⟩

/-- The numeric core of a `results` row: everything except the name. -/
def rowCore (r : CorsiRow) : Int × Nat × Nat × Nat × ℚ × Nat :=
  (r.playerId, r.CF, r.CA, r.CF_plus_CA, r.Corsi_pct, r.TOI_events)

/-- The numeric core of a finalized row: everything except the name and
the dictionary-derived team / relative-percentage columns. -/
def finalCore (r : CorsiRowFinal) : Int × Nat × Nat × Nat × ℚ × Nat :=
  (r.playerId, r.CF, r.CA, r.CF_plus_CA, r.Corsi_pct, r.TOI_events)

lemma rowCore_pct {a b : CorsiRow} (h : rowCore a = rowCore b) :
    a.Corsi_pct = b.Corsi_pct :=
  congrArg (fun t => t.2.2.2.2.1) h

lemma map_core_orderedInsert (a b : CorsiRow) :
    ∀ (l1 l2 : List CorsiRow), rowCore a = rowCore b →
      l1.map rowCore = l2.map rowCore →
      (l1.orderedInsert rowLE a).map rowCore = (l2.orderedInsert rowLE b).map rowCore := by
  intro l1
  induction l1 with
  | nil =>
    intro l2 hab h
    cases l2 with
    | nil => simpa using hab
    | cons y ys => simp at h
  | cons x xs ih =>
    intro l2 hab h
    cases l2 with
    | nil => simp at h
    | cons y ys =>
      simp only [List.map_cons, List.cons.injEq] at h
      obtain ⟨hxy, hrest⟩ := h
      simp only [List.orderedInsert]
      have hcond : rowLE a x ↔ rowLE b y := by
        unfold rowLE
        rw [rowCore_pct hab, rowCore_pct hxy]
      by_cases hle : rowLE a x
      · rw [if_pos hle, if_pos (hcond.mp hle)]
        simp only [List.map_cons, hab, hxy, hrest]
      · rw [if_neg hle, if_neg (fun hh => hle (hcond.mpr hh))]
        simp only [List.map_cons, hxy]
        rw [ih ys hab hrest]

lemma map_core_insertionSort :
    ∀ (l1 l2 : List CorsiRow), l1.map rowCore = l2.map rowCore →
      (List.insertionSort rowLE l1).map rowCore =
        (List.insertionSort rowLE l2).map rowCore := by
  intro l1
  induction l1 with
  | nil =>
    intro l2 h
    cases l2 with
    | nil => rfl
    | cons y ys => simp at h
  | cons x xs ih =>
    intro l2 h
    cases l2 with
    | nil => simp at h
    | cons y ys =>
      simp only [List.map_cons, List.cons.injEq] at h
      obtain ⟨hxy, hrest⟩ := h
      simp only [List.insertionSort]
      exact map_core_orderedInsert x y _ _ hxy (ih ys hrest)

/-! ## Concrete test fixtures -/

/-- A single qualifying 5v5 shot attempt: shooter 1 on the home side,
home on-ice 1–6, away on-ice 7–12. -/
def fxEvent : EnrichedEvent :=
  { periodNumber := some 1, timeInPeriod := some "10:00",
    typeCode := some 506, situationCode := some 1551,
    shootingPlayerId := some 1,
    homePlayersOnIce := some [1, 2, 3, 4, 5, 6],
    awayPlayersOnIce := some [7, 8, 9, 10, 11, 12],
    homePlayersCount := 6, awayPlayersCount := 6 }

/-- A one-event play-by-play table. -/
def fxEvents : List EnrichedEvent := [fxEvent]

/-- A player directory putting players 1–6 on team `X` and 7–12 on `Y`. -/
def fxDictA : PlayerDict :=
  [(1, ⟨"P1", "X"⟩), (2, ⟨"P2", "X"⟩), (3, ⟨"P3", "X"⟩),
   (4, ⟨"P4", "X"⟩), (5, ⟨"P5", "X"⟩), (6, ⟨"P6", "X"⟩),
   (7, ⟨"P7", "Y"⟩), (8, ⟨"P8", "Y"⟩), (9, ⟨"P9", "Y"⟩),
   (10, ⟨"P10", "Y"⟩), (11, ⟨"P11", "Y"⟩), (12, ⟨"P12", "Y"⟩)]

/-- The same directory except that every player is put on team `X`. -/
def fxDictB : PlayerDict :=
  [(1, ⟨"P1", "X"⟩), (2, ⟨"P2", "X"⟩), (3, ⟨"P3", "X"⟩),
   (4, ⟨"P4", "X"⟩), (5, ⟨"P5", "X"⟩), (6, ⟨"P6", "X"⟩),
   (7, ⟨"P7", "X"⟩), (8, ⟨"P8", "X"⟩), (9, ⟨"P9", "X"⟩),
   (10, ⟨"P10", "X"⟩), (11, ⟨"P11", "X"⟩), (12, ⟨"P12", "X"⟩)]

/-- A `results` row of a player with one Corsi-for event. -/
def rowLitA (pid : Int) (nm : String) : CorsiRow := ⟨pid, nm, 1, 0, 1, 100, 1⟩

/-- A `results` row of a player with one Corsi-against event. -/
def rowLitB (pid : Int) (nm : String) : CorsiRow := ⟨pid, nm, 0, 1, 1, 0, 1⟩

lemma round1_hundred : round1 100 = 100 := by norm_num [round1, round_eq]

lemma fxStats : aggregateStats (corsi_events fxEvents) =
    [(1, ⟨1, 0, 1⟩), (2, ⟨1, 0, 1⟩), (3, ⟨1, 0, 1⟩), (4, ⟨1, 0, 1⟩),
     (5, ⟨1, 0, 1⟩), (6, ⟨1, 0, 1⟩),
     (7, ⟨0, 1, 1⟩), (8, ⟨0, 1, 1⟩), (9, ⟨0, 1, 1⟩), (10, ⟨0, 1, 1⟩),
     (11, ⟨0, 1, 1⟩), (12, ⟨0, 1, 1⟩)] := by rfl

lemma fxRowsA : (aggregateStats (corsi_events fxEvents)).map (mkRow fxDictA) =
    [rowLitA 1 "P1", rowLitA 2 "P2", rowLitA 3 "P3", rowLitA 4 "P4",
     rowLitA 5 "P5", rowLitA 6 "P6",
     rowLitB 7 "P7", rowLitB 8 "P8", rowLitB 9 "P9", rowLitB 10 "P10",
     rowLitB 11 "P11", rowLitB 12 "P12"] := by
  rw [fxStats]
  simp [mkRow, rowLitA, rowLitB, get_player_name, dictGet, round1_hundred, round1_zero]
  decide

lemma fxRowsB : (aggregateStats (corsi_events fxEvents)).map (mkRow fxDictB) =
    [rowLitA 1 "P1", rowLitA 2 "P2", rowLitA 3 "P3", rowLitA 4 "P4",
     rowLitA 5 "P5", rowLitA 6 "P6",
     rowLitB 7 "P7", rowLitB 8 "P8", rowLitB 9 "P9", rowLitB 10 "P10",
     rowLitB 11 "P11", rowLitB 12 "P12"] := by
  rw [fxStats]
  simp [mkRow, rowLitA, rowLitB, get_player_name, dictGet, round1_hundred, round1_zero]
  decide

/-- The sorted `results` table of the fixture: descending percentage, and
the equal-percentage groups in reverse of their pre-sort order. -/
def fxSortedRows : List CorsiRow :=
  [rowLitA 6 "P6", rowLitA 5 "P5", rowLitA 4 "P4", rowLitA 3 "P3",
   rowLitA 2 "P2", rowLitA 1 "P1",
   rowLitB 12 "P12", rowLitB 11 "P11", rowLitB 10 "P10", rowLitB 9 "P9",
   rowLitB 8 "P8", rowLitB 7 "P7"]

lemma fxSortedA :
    sort_values_desc ((aggregateStats (corsi_events fxEvents)).map (mkRow fxDictA)) =
      fxSortedRows := by
  rw [fxRowsA]; rfl

lemma fxSortedB :
    sort_values_desc ((aggregateStats (corsi_events fxEvents)).map (mkRow fxDictB)) =
      fxSortedRows := by
  rw [fxRowsB]; rfl

lemma fxAvgAX : team_avg fxSortedRows fxDictA "X" = 100 := by
  simp [team_avg, fxSortedRows, rowLitA, rowLitB, teamOf, dictGet, fxDictA]
  norm_num

lemma fxAvgAY : team_avg fxSortedRows fxDictA "Y" = 0 := by
  simp [team_avg, fxSortedRows, rowLitA, rowLitB, teamOf, dictGet, fxDictA]

lemma fxAvgBX : team_avg fxSortedRows fxDictB "X" = 50 := by
  simp [team_avg, fxSortedRows, rowLitA, rowLitB, teamOf, dictGet, fxDictB]
  norm_num

lemma fxAddA_X (pid : Int) (nm : String) (h : teamOf fxDictA pid = some "X") :
    addTeamCols fxSortedRows fxDictA (rowLitA pid nm) =
      ⟨pid, nm, some "X", 1, 0, 1, 100, some 0, 1⟩ := by
  simp only [addTeamCols, rowLitA, h, Option.map_some']
  rw [fxAvgAX]
  norm_num [round1, round_eq]

lemma fxAddA_Y (pid : Int) (nm : String) (h : teamOf fxDictA pid = some "Y") :
    addTeamCols fxSortedRows fxDictA (rowLitB pid nm) =
      ⟨pid, nm, some "Y", 0, 1, 1, 0, some 0, 1⟩ := by
  simp only [addTeamCols, rowLitB, h, Option.map_some']
  rw [fxAvgAY]
  norm_num [round1, round_eq]

lemma fxAddB_CF (pid : Int) (nm : String) (h : teamOf fxDictB pid = some "X") :
    addTeamCols fxSortedRows fxDictB (rowLitA pid nm) =
      ⟨pid, nm, some "X", 1, 0, 1, 100, some 50, 1⟩ := by
  simp only [addTeamCols, rowLitA, h, Option.map_some']
  rw [fxAvgBX]
  norm_num [round1, round_eq]

lemma fxAddB_CA (pid : Int) (nm : String) (h : teamOf fxDictB pid = some "X") :
    addTeamCols fxSortedRows fxDictB (rowLitB pid nm) =
      ⟨pid, nm, some "X", 0, 1, 1, 0, some (-50), 1⟩ := by
  simp only [addTeamCols, rowLitB, h, Option.map_some']
  rw [fxAvgBX]
  norm_num [round1, round_eq]

lemma fxAnalyzeA : analyze_player_corsi_5v5 fxEvents fxDictA =
    [⟨6, "P6", some "X", 1, 0, 1, 100, some 0, 1⟩,
     ⟨5, "P5", some "X", 1, 0, 1, 100, some 0, 1⟩,
     ⟨4, "P4", some "X", 1, 0, 1, 100, some 0, 1⟩,
     ⟨3, "P3", some "X", 1, 0, 1, 100, some 0, 1⟩,
     ⟨2, "P2", some "X", 1, 0, 1, 100, some 0, 1⟩,
     ⟨1, "P1", some "X", 1, 0, 1, 100, some 0, 1⟩,
     ⟨12, "P12", some "Y", 0, 1, 1, 0, some 0, 1⟩,
     ⟨11, "P11", some "Y", 0, 1, 1, 0, some 0, 1⟩,
     ⟨10, "P10", some "Y", 0, 1, 1, 0, some 0, 1⟩,
     ⟨9, "P9", some "Y", 0, 1, 1, 0, some 0, 1⟩,
     ⟨8, "P8", some "Y", 0, 1, 1, 0, some 0, 1⟩,
     ⟨7, "P7", some "Y", 0, 1, 1, 0, some 0, 1⟩] := by
  show (sort_values_desc ((aggregateStats (corsi_events fxEvents)).map (mkRow fxDictA))).map
      (addTeamCols (sort_values_desc ((aggregateStats (corsi_events fxEvents)).map (mkRow fxDictA)))
        fxDictA) = _
  rw [fxSortedA]
  show List.map (addTeamCols fxSortedRows fxDictA)
      (rowLitA 6 "P6" :: rowLitA 5 "P5" :: rowLitA 4 "P4" :: rowLitA 3 "P3" ::
       rowLitA 2 "P2" :: rowLitA 1 "P1" ::
       rowLitB 12 "P12" :: rowLitB 11 "P11" :: rowLitB 10 "P10" :: rowLitB 9 "P9" ::
       rowLitB 8 "P8" :: rowLitB 7 "P7" :: []) = _
  rw [List.map_cons, List.map_cons, List.map_cons, List.map_cons, List.map_cons,
    List.map_cons, List.map_cons, List.map_cons, List.map_cons, List.map_cons,
    List.map_cons, List.map_cons, List.map_nil]
  rw [fxAddA_X 6 "P6" rfl, fxAddA_X 5 "P5" rfl, fxAddA_X 4 "P4" rfl,
    fxAddA_X 3 "P3" rfl, fxAddA_X 2 "P2" rfl, fxAddA_X 1 "P1" rfl,
    fxAddA_Y 12 "P12" rfl, fxAddA_Y 11 "P11" rfl, fxAddA_Y 10 "P10" rfl,
    fxAddA_Y 9 "P9" rfl, fxAddA_Y 8 "P8" rfl, fxAddA_Y 7 "P7" rfl]

lemma fxAnalyzeB : analyze_player_corsi_5v5 fxEvents fxDictB =
    [⟨6, "P6", some "X", 1, 0, 1, 100, some 50, 1⟩,
     ⟨5, "P5", some "X", 1, 0, 1, 100, some 50, 1⟩,
     ⟨4, "P4", some "X", 1, 0, 1, 100, some 50, 1⟩,
     ⟨3, "P3", some "X", 1, 0, 1, 100, some 50, 1⟩,
     ⟨2, "P2", some "X", 1, 0, 1, 100, some 50, 1⟩,
     ⟨1, "P1", some "X", 1, 0, 1, 100, some 50, 1⟩,
     ⟨12, "P12", some "X", 0, 1, 1, 0, some (-50), 1⟩,
     ⟨11, "P11", some "X", 0, 1, 1, 0, some (-50), 1⟩,
     ⟨10, "P10", some "X", 0, 1, 1, 0, some (-50), 1⟩,
     ⟨9, "P9", some "X", 0, 1, 1, 0, some (-50), 1⟩,
     ⟨8, "P8", some "X", 0, 1, 1, 0, some (-50), 1⟩,
     ⟨7, "P7", some "X", 0, 1, 1, 0, some (-50), 1⟩] := by
  show (sort_values_desc ((aggregateStats (corsi_events fxEvents)).map (mkRow fxDictB))).map
      (addTeamCols (sort_values_desc ((aggregateStats (corsi_events fxEvents)).map (mkRow fxDictB)))
        fxDictB) = _
  rw [fxSortedB]
  show List.map (addTeamCols fxSortedRows fxDictB)
      (rowLitA 6 "P6" :: rowLitA 5 "P5" :: rowLitA 4 "P4" :: rowLitA 3 "P3" ::
       rowLitA 2 "P2" :: rowLitA 1 "P1" ::
       rowLitB 12 "P12" :: rowLitB 11 "P11" :: rowLitB 10 "P10" :: rowLitB 9 "P9" ::
       rowLitB 8 "P8" :: rowLitB 7 "P7" :: []) = _
  rw [List.map_cons, List.map_cons, List.map_cons, List.map_cons, List.map_cons,
    List.map_cons, List.map_cons, List.map_cons, List.map_cons, List.map_cons,
    List.map_cons, List.map_cons, List.map_nil]
  rw [fxAddB_CF 6 "P6" rfl, fxAddB_CF 5 "P5" rfl, fxAddB_CF 4 "P4" rfl,
    fxAddB_CF 3 "P3" rfl, fxAddB_CF 2 "P2" rfl, fxAddB_CF 1 "P1" rfl,
    fxAddB_CA 12 "P12" rfl, fxAddB_CA 11 "P11" rfl, fxAddB_CA 10 "P10" rfl,
    fxAddB_CA 9 "P9" rfl, fxAddB_CA 8 "P8" rfl, fxAddB_CA 7 "P7" rfl]

/-! ## Claim theorems -/

/-- C1: for a shift interval [start, end] and an event time t in the same
(team, period), the presence query includes the interval's player iff
`start < t ≤ end` (left-open, right-closed); in particular on the interval
[0, 60] ("00:00"–"01:00"), t = 0 is absent, t = 60 is present and t = 61
is absent. -/
theorem c1_boundary_rule (s : ShiftRow) (tm tstr : String) (a b tv : Int)
    (htype : s.typeCode ≠ 505) (hteam : s.teamAbbrev = tm) (hne : tm ≠ "")
    (ha : convert_time_to_seconds (some s.startTime) = .ok (some a))
    (hb : convert_time_to_seconds (some s.endTime) = .ok (some b))
    (ht : convert_time_to_seconds (some tstr) = .ok (some tv)) :
    (∃ l, get_players_on_ice [s] s.period (some tstr) (some tm) = .ok l ∧
      (s.playerId ∈ l ↔ (a < tv ∧ tv ≤ b)))
    ∧ get_players_on_ice [⟨9, "T", 1, "00:00", "01:00", 517⟩] 1
        (some "00:00") (some "T") = .ok []
    ∧ get_players_on_ice [⟨9, "T", 1, "00:00", "01:00", 517⟩] 1
        (some "01:00") (some "T") = .ok [9]
    ∧ get_players_on_ice [⟨9, "T", 1, "00:00", "01:00", 517⟩] 1
        (some "01:01") (some "T") = .ok [] := by
  refine ⟨?_, by rfl, by rfl, by rfl⟩
  have hfilter : period_team_shifts [s] s.period (some tm) = [s] := by
    simp [period_team_shifts, hteam, hne]
  have hp : ∀ x ∈ period_team_shifts [s] s.period (some tm),
      x.typeCode ≠ 505 → (rowTimes x).isSome := by
    rw [hfilter]
    intro x hx _
    rw [List.mem_singleton] at hx
    subst hx
    rw [rowTimes_eq_some ha hb]
    rfl
  have hchar := get_players_on_ice_char [s] s.period tstr (some tm) tv ht hp
  rw [hfilter] at hchar
  have h505 : (s.typeCode == 505) = false := by simp [htype]
  have hcov : rowCovers s tv = decide (a < tv ∧ tv ≤ b) := by
    unfold rowCovers
    rw [rowTimes_eq_some ha hb]
  by_cases hc : a < tv ∧ tv ≤ b
  · refine ⟨[s.playerId], ?_, by simp [hc]⟩
    rw [hchar]
    simp [List.filter_cons, h505, hcov, hc]
  · refine ⟨[], ?_, by simp [hc]⟩
    rw [hchar]
    simp [List.filter_cons, h505, hcov, hc]

/-- Witness for C1 at the concrete shift [30, 90] of player 9 queried at
t = 60. -/
theorem c1_boundary_rule_witness :
    ∃ l, get_players_on_ice [⟨9, "T", 1, "00:30", "01:30", 517⟩] 1
        (some "01:00") (some "T") = .ok l ∧ (9 ∈ l ↔ ((30 : Int) < 60 ∧ (60 : Int) ≤ 90)) :=
  (c1_boundary_rule ⟨9, "T", 1, "00:30", "01:30", 517⟩ "T" "01:00" 30 90 60
    (by decide) rfl (by decide) rfl rfl rfl).1

/-- C2: the situation filter selects an event iff all four conditions hold
(type in the shot-attempt family, situationCode 1551, both derived on-ice
counts equal to 6); an event failing the count cross-check or the
situation code is excluded. -/
theorem c2_situation_filter (e : EnrichedEvent) (evs : List EnrichedEvent) :
    (e ∈ corsi_events evs ↔ e ∈ evs ∧
      ((∃ c, e.typeCode = some c ∧ c ∈ shot_attempt_events) ∧
        e.situationCode = some 1551 ∧
        e.homePlayersCount = 6 ∧ e.awayPlayersCount = 6))
    ∧ (e.situationCode = some 1551 →
        (e.homePlayersCount ≠ 6 ∨ e.awayPlayersCount ≠ 6) →
        corsiFilterPred e = false)
    ∧ (e.situationCode ≠ some 1551 → corsiFilterPred e = false) := by
  refine ⟨?_, ?_, ?_⟩
  · unfold corsi_events
    rw [List.mem_filter, corsiFilterPred_iff]
  · intro _ hcnt
    cases hpred : corsiFilterPred e
    · rfl
    · obtain ⟨_, _, h6, h6'⟩ := (corsiFilterPred_iff e).mp hpred
      rcases hcnt with h | h
      · exact absurd h6 h
      · exact absurd h6' h
  · intro hsit
    cases hpred : corsiFilterPred e
    · rfl
    · obtain ⟨_, h1551, _, _⟩ := (corsiFilterPred_iff e).mp hpred
      exact absurd h1551 hsit

/-- An event with `situationCode` 1551 but a failed count cross-check. -/
def fxBadCounts : EnrichedEvent :=
  { periodNumber := some 1, timeInPeriod := some "10:00",
    typeCode := some 506, situationCode := some 1551,
    shootingPlayerId := some 1,
    homePlayersOnIce := some [1, 2, 3, 4, 5],
    awayPlayersOnIce := some [7, 8, 9, 10, 11, 12],
    homePlayersCount := 5, awayPlayersCount := 6 }

/-- A 6-on-6 event whose `situationCode` is not 1551. -/
def fxBadSituation : EnrichedEvent :=
  { periodNumber := some 1, timeInPeriod := some "10:00",
    typeCode := some 506, situationCode := some 1560,
    shootingPlayerId := some 1,
    homePlayersOnIce := some [1, 2, 3, 4, 5, 6],
    awayPlayersOnIce := some [7, 8, 9, 10, 11, 12],
    homePlayersCount := 6, awayPlayersCount := 6 }

/-- Witness for C2: both cross-check failures are excluded. -/
theorem c2_situation_filter_witness :
    corsiFilterPred fxBadCounts = false ∧ corsiFilterPred fxBadSituation = false :=
  ⟨(c2_situation_filter fxBadCounts []).2.1 rfl (Or.inl (by decide)),
   (c2_situation_filter fxBadSituation []).2.2 (by decide)⟩

/-- C3: for each qualifying, non-skipped event exactly one team's on-ice
players each gain +1 CF while the other team's each gain +1 CA (everyone
else untouched); summed over the whole aggregation pass, the CF total
credited to one roster equals the CA total credited to the opposing
roster. -/
theorem c3_zero_sum (evs : List EnrichedEvent) (H A : List Int)
    (hdis : ∀ x ∈ H, x ∈ A → False)
    (hH : ∀ e ∈ evs, ∀ x ∈ evHome e, x ∈ H)
    (hA : ∀ e ∈ evs, ∀ x ∈ evAway e, x ∈ A)
    (hcnt : ∀ e ∈ evs, e.homePlayersCount = (evHome e).length ∧
      e.awayPlayersCount = (evAway e).length) :
    (sumCF (aggregateStats (corsi_events evs)) H =
       sumCA (aggregateStats (corsi_events evs)) A
     ∧ sumCF (aggregateStats (corsi_events evs)) A =
       sumCA (aggregateStats (corsi_events evs)) H)
    ∧ (∀ (st : StatsMap) (e : EnrichedEvent) (sh : Side),
        shooting_team e = some sh →
        (evHome e).Nodup → (evAway e).Nodup →
        (∀ x ∈ evHome e, x ∈ evAway e → False) →
        (∀ pid ∈ evHome e,
          (statsOf (processEvent st e) pid).CF =
            (statsOf st pid).CF + (if sh = Side.home then 1 else 0) ∧
          (statsOf (processEvent st e) pid).CA =
            (statsOf st pid).CA + (if sh = Side.home then 0 else 1)) ∧
        (∀ pid ∈ evAway e,
          (statsOf (processEvent st e) pid).CF =
            (statsOf st pid).CF + (if sh = Side.away then 1 else 0) ∧
          (statsOf (processEvent st e) pid).CA =
            (statsOf st pid).CA + (if sh = Side.away then 0 else 1)) ∧
        (∀ pid, pid ∉ evHome e → pid ∉ evAway e →
          statsOf (processEvent st e) pid = statsOf st pid)) := by
  constructor
  · have hl : ∀ e ∈ corsi_events evs,
        (∀ x ∈ evHome e, x ∈ H) ∧ (∀ x ∈ evAway e, x ∈ A) ∧
        (evHome e).length = (evAway e).length := by
      intro e he
      have hmem := (List.mem_filter.mp he).1
      have hpred := (List.mem_filter.mp he).2
      obtain ⟨_, _, h6, h6'⟩ := (corsiFilterPred_iff e).mp hpred
      obtain ⟨hc1, hc2⟩ := hcnt e hmem
      exact ⟨hH e hmem, hA e hmem, by rw [← hc1, ← hc2, h6, h6']⟩
    exact zeroSum_fold H A hdis (corsi_events evs) hl [] ⟨rfl, rfl⟩
  · intro st e sh hst hndH hndA hdisEv
    obtain ⟨hhome, haway, hout⟩ := processEvent_statsOf e st sh hst hndH hndA hdisEv
    refine ⟨?_, ?_, hout⟩
    · intro pid hpid
      rw [hhome pid hpid]
      cases sh <;> simp [addCF, addCA]
    · intro pid hpid
      rw [haway pid hpid]
      cases sh <;> simp [addCF, addCA]

/-- Witness for C3 on the one-event fixture: 6 CF credited to the home
roster, 6 CA to the away roster. -/
theorem c3_zero_sum_witness :
    sumCF (aggregateStats (corsi_events fxEvents)) [1, 2, 3, 4, 5, 6] =
      sumCA (aggregateStats (corsi_events fxEvents)) [7, 8, 9, 10, 11, 12] :=
  (c3_zero_sum fxEvents [1, 2, 3, 4, 5, 6] [7, 8, 9, 10, 11, 12]
    (by decide) (by decide) (by decide) (by decide)).1.1

/-- C4: after the aggregation pass over any filtered event sequence, every
entry of the statistics table satisfies `CF + CA = TOI_events`. -/
theorem c4_cf_ca_attempts (evs : List EnrichedEvent) :
    ∀ p ∈ aggregateStats (corsi_events evs),
      p.2.CF + p.2.CA = p.2.TOI_events :=
  cfca_aggregate (corsi_events evs)

/-- Witness for C4 at a concrete table entry of the fixture. -/
theorem c4_cf_ca_attempts_witness :
    (6, (⟨1, 0, 1⟩ : PStats)) ∈ aggregateStats (corsi_events fxEvents) ∧
    (⟨1, 0, 1⟩ : PStats).CF + (⟨1, 0, 1⟩ : PStats).CA =
      (⟨1, 0, 1⟩ : PStats).TOI_events :=
  ⟨by rw [fxStats]; decide,
   c4_cf_ca_attempts fxEvents (6, ⟨1, 0, 1⟩) (by rw [fxStats]; decide)⟩

/-- C5: a successful enrichment run is a strict order-preserving 1:1
transform — output length equals input length, position k of the output is
the enrichment of position k of the input, and an input event missing its
clock or period yields empty on-ice sets and zero counts. -/
theorem c5_enrichment_one_to_one (shifts : List ShiftRow)
    (plays : List PlayEvent) (out : List EnrichedEvent)
    (h : combine_pbp_with_shifts shifts plays = .ok out) :
    out.length = plays.length
    ∧ (∀ k (hk : k < plays.length) (hk' : k < out.length),
        ∃ home away, homeTeamOf shifts = some home ∧ awayTeamOf shifts = some away ∧
          enrich_play shifts home away (plays.get ⟨k, hk⟩) = .ok (out.get ⟨k, hk'⟩))
    ∧ (∀ k (hk : k < plays.length) (hk' : k < out.length),
        ((plays.get ⟨k, hk⟩).timeInPeriod = none ∨
          (plays.get ⟨k, hk⟩).periodNumber = none) →
        (out.get ⟨k, hk'⟩).homePlayersOnIce = none ∧
        (out.get ⟨k, hk'⟩).awayPlayersOnIce = none ∧
        evHome (out.get ⟨k, hk'⟩) = [] ∧ evAway (out.get ⟨k, hk'⟩) = [] ∧
        (out.get ⟨k, hk'⟩).homePlayersCount = 0 ∧
        (out.get ⟨k, hk'⟩).awayPlayersCount = 0) := by
  unfold combine_pbp_with_shifts at h
  rcases hhome : homeTeamOf shifts with _ | home
  · rw [hhome] at h; cases h
  · rcases haway : awayTeamOf shifts with _ | away
    · rw [hhome, haway] at h; cases h
    · rw [hhome, haway] at h
      obtain ⟨hlen, hpt⟩ := mapM_ok_pointwise (enrich_play shifts home away) plays out h
      refine ⟨hlen, ?_, ?_⟩
      · intro k hk hk'
        exact ⟨home, away, rfl, rfl, hpt k hk hk'⟩
      · intro k hk hk' habs
        have he := hpt k hk hk'
        rw [enrich_play_absent shifts home away _ habs] at he
        have := Except.ok.inj he
        rw [← this]
        exact ⟨rfl, rfl, rfl, rfl, rfl, rfl⟩

/-- A two-team shift table for the enrichment witness. -/
def fxShifts : List ShiftRow :=
  [⟨1, "AAA", 1, "00:00", "01:00", 517⟩, ⟨2, "BBB", 1, "00:00", "01:00", 517⟩]

/-- A play list whose single event has no period number. -/
def fxPlays : List PlayEvent :=
  [{ periodNumber := none, timeInPeriod := some "00:30",
     typeCode := some 506, situationCode := some 1551,
     shootingPlayerId := none }]

/-- The enrichment of the single (period-less) fixture play. -/
def fxEnrichedAbsent : EnrichedEvent :=
  { periodNumber := none, timeInPeriod := some "00:30",
    typeCode := some 506, situationCode := some 1551,
    shootingPlayerId := none, homePlayersOnIce := none,
    awayPlayersOnIce := none, homePlayersCount := 0,
    awayPlayersCount := 0 }

/-- Witness for C5: a concrete successful run preserves length. -/
theorem c5_enrichment_one_to_one_witness :
    ∃ out, combine_pbp_with_shifts fxShifts fxPlays = .ok out ∧
      out.length = fxPlays.length := by
  refine ⟨[fxEnrichedAbsent], rfl, ?_⟩
  exact (c5_enrichment_one_to_one fxShifts fxPlays _ rfl).1

/-- C6 counterexample: a clock string with exactly two colon-separated
fields that are not numeric is NOT treated as absent — the conversion
raises (`ValueError` in `int()`), and a caller passing such a shift clock
propagates the error (the pipeline aborts). -/
theorem c6_clock_cex :
    convert_time_to_seconds (some "aa:bb") = .error ()
    ∧ get_players_on_ice [⟨7, "T", 1, "aa:bb", "01:00", 517⟩] 1
        (some "00:30") (some "T") = .error () :=
  ⟨rfl, rfl⟩

/-- C6 amended: the clock parser returns the absent sentinel on a missing
value and on a string with a number of `:`-fields other than two, returns
`minutes * 60 + seconds` on two numeric fields, and raises on two fields
that are not both numeric — callers do not catch that error. -/
theorem c6_clock_parsing :
    convert_time_to_seconds none = .ok none
    ∧ (∀ s : String, (pySplit ':' s.toList).length ≠ 2 →
        convert_time_to_seconds (some s) = .ok none)
    ∧ (∀ (s : String) (m sec : List Char) (mv sv : Int),
        pySplit ':' s.toList = [m, sec] →
        pyInt m = some mv → pyInt sec = some sv →
        convert_time_to_seconds (some s) = .ok (some (mv * 60 + sv)))
    ∧ (∀ (s : String) (m sec : List Char),
        pySplit ':' s.toList = [m, sec] →
        (pyInt m = none ∨ pyInt sec = none) →
        convert_time_to_seconds (some s) = .error ()) := by
  refine ⟨rfl, ?_, ?_, ?_⟩
  · intro s hlen
    rcases hsplit : pySplit ':' s.toList with _ | ⟨x, _ | ⟨y, _ | ⟨z, rest⟩⟩⟩ <;>
      simp only [String.toList] at hsplit
    · simp [convert_time_to_seconds, hsplit]
    · simp [convert_time_to_seconds, hsplit]
    · exact absurd (by simp only [String.toList]; rw [hsplit]; rfl) hlen
    · simp [convert_time_to_seconds, hsplit]
  · intro s m sec mv sv hsplit hm hsec
    simp only [String.toList] at hsplit
    simp [convert_time_to_seconds, hsplit, hm, hsec]
  · intro s m sec hsplit hbad
    simp only [String.toList] at hsplit
    rcases hbad with h | h
    · simp [convert_time_to_seconds, hsplit, h]
    · rcases hm2 : pyInt m with _ | v <;>
        simp [convert_time_to_seconds, hsplit, hm2, h]

/-- Witness for C6 amended, at `"12:34"`, `"1:2:3"` and `"aa:bb"`. -/
theorem c6_clock_parsing_witness :
    convert_time_to_seconds (some "12:34") = .ok (some (12 * 60 + 34))
    ∧ convert_time_to_seconds (some "1:2:3") = .ok none
    ∧ convert_time_to_seconds (some "aa:bb") = .error () :=
  ⟨c6_clock_parsing.2.2.1 "12:34" "12".toList "34".toList 12 34 rfl rfl rfl,
   c6_clock_parsing.2.1 "1:2:3" (by decide),
   c6_clock_parsing.2.2.2 "aa:bb" "aa".toList "bb".toList rfl (Or.inl rfl)⟩

/-- C7 counterexample: the pre-sort table lists players 1..12 in insertion
order, with players 1..6 sharing percentage 100; the sorted output lists
player 2 before player 1 — two equal-percentage players do NOT keep their
pre-sort relative order (pandas' descending sort reverses an ascending
argsort). -/
theorem c7_sort_cex :
    ((aggregateStats (corsi_events fxEvents)).map Prod.fst =
      [1, 2, 3, 4, 5, 6, 7, 8, 9, 10, 11, 12])
    ∧ ((analyze_player_corsi_5v5 fxEvents fxDictA).map (·.playerId) =
      [6, 5, 4, 3, 2, 1, 12, 11, 10, 9, 8, 7])
    ∧ ((analyze_player_corsi_5v5 fxEvents fxDictA).map (·.Corsi_pct) =
      [100, 100, 100, 100, 100, 100, 0, 0, 0, 0, 0, 0])
    ∧ (((analyze_player_corsi_5v5 fxEvents fxDictA).map (·.playerId)).indexOf 2 <
        ((analyze_player_corsi_5v5 fxEvents fxDictA).map (·.playerId)).indexOf 1)
    ∧ (((aggregateStats (corsi_events fxEvents)).map Prod.fst).indexOf 1 <
        ((aggregateStats (corsi_events fxEvents)).map Prod.fst).indexOf 2) := by
  refine ⟨by rw [fxStats]; rfl, ?_, ?_, ?_, by rw [fxStats]; decide⟩
  · rw [fxAnalyzeA]; rfl
  · rw [fxAnalyzeA]; rfl
  · rw [fxAnalyzeA]; decide

/-- C7 amended: the output table is sorted by percentage descending
(every earlier row's percentage is at least every later row's); equal
percentages need not keep their pre-sort order. -/
theorem c7_sorted_desc (evs : List EnrichedEvent) (d : PlayerDict) :
    (analyze_player_corsi_5v5 evs d).Pairwise
      (fun r1 r2 => r2.Corsi_pct ≤ r1.Corsi_pct) := by
  unfold analyze_player_corsi_5v5
  rw [List.pairwise_map]
  have hsorted : (sort_values_desc
      ((aggregateStats (corsi_events evs)).map (mkRow d))).Pairwise
        (fun a b => b.Corsi_pct ≤ a.Corsi_pct) := by
    unfold sort_values_desc
    rw [List.pairwise_reverse]
    exact List.sorted_insertionSort rowLE _
  exact hsorted.imp (fun h => by simpa [addTeamCols] using h)

/-- C8: every finalized row's percentage is `CF / (CF + CA) * 100` rounded
to one decimal, and 0 (not an error) when `CF + CA = 0`. -/
theorem c8_percentage (evs : List EnrichedEvent) (d : PlayerDict)
    (r : CorsiRowFinal) (h : r ∈ analyze_player_corsi_5v5 evs d) :
    (r.CF + r.CA = 0 → r.Corsi_pct = 0)
    ∧ (r.CF + r.CA ≠ 0 →
        r.Corsi_pct = round1 ((r.CF : ℚ) / ((r.CF : ℚ) + (r.CA : ℚ)) * 100)) := by
  obtain ⟨p, _, hCF, hCA, hpct⟩ := analyze_mem_elim evs d r h
  constructor
  · intro hzero
    rw [hpct, if_neg (by omega : ¬ p.2.CF + p.2.CA > 0), round1_zero]
  · intro hne
    rw [hpct, if_pos (by omega : p.2.CF + p.2.CA > 0), hCF, hCA]
    congr 1
    push_cast
    ring

/-- The top output row of the fixture run. -/
def fxRow6 : CorsiRowFinal := ⟨6, "P6", some "X", 1, 0, 1, 100, some 0, 1⟩

/-- Witness for C8 at the fixture's top row. -/
theorem c8_percentage_witness :
    fxRow6 ∈ analyze_player_corsi_5v5 fxEvents fxDictA ∧
    fxRow6.Corsi_pct =
      round1 ((fxRow6.CF : ℚ) / ((fxRow6.CF : ℚ) + (fxRow6.CA : ℚ)) * 100) :=
  have hmem : fxRow6 ∈ analyze_player_corsi_5v5 fxEvents fxDictA := by
    rw [fxAnalyzeA]; exact List.mem_cons_self _ _
  ⟨hmem, (c8_percentage fxEvents fxDictA fxRow6 hmem).2 (by decide)⟩

/-- A shift table in which player 7 has two identical intervals. -/
def fxDupShifts : List ShiftRow :=
  [⟨7, "T", 1, "00:00", "01:00", 517⟩, ⟨7, "T", 1, "00:00", "01:00", 517⟩]

/-- C9 counterexample: with two overlapping intervals of player 7 both
covering t = 30, the query returns `[7, 7]` — the playerId occurs twice,
so the result is not a set. -/
theorem c9_duplicates_cex :
    get_players_on_ice fxDupShifts 1 (some "00:30") (some "T") = .ok [7, 7]
    ∧ ([7, 7] : List Int).count 7 = 2
    ∧ ¬ ([7, 7] : List Int).Nodup :=
  ⟨rfl, by decide, by decide⟩

/-- C9 amended: the query returns a list with exactly one entry, in row
order, for every non-goal interval of the (team, period) group that
satisfies the boundary rule — a player with several matching intervals
appears once per interval. -/
theorem c9_entry_per_interval (shifts : List ShiftRow) (period : Int)
    (tstr : String) (team : Option String) (tv : Int)
    (ht : convert_time_to_seconds (some tstr) = .ok (some tv))
    (hp : ∀ s ∈ period_team_shifts shifts period team,
        s.typeCode ≠ 505 → (rowTimes s).isSome) :
    get_players_on_ice shifts period (some tstr) team =
      .ok (((period_team_shifts shifts period team).filter
        (fun s => !(s.typeCode == 505) && rowCovers s tv)).map (·.playerId)) :=
  get_players_on_ice_char shifts period tstr team tv ht hp

/-- Witness for C9 amended at the duplicated-interval fixture. -/
theorem c9_entry_per_interval_witness :
    get_players_on_ice fxDupShifts 1 (some "00:30") (some "T") =
      .ok (((period_team_shifts fxDupShifts 1 (some "T")).filter
        (fun s => !(s.typeCode == 505) && rowCovers s 30)).map (·.playerId)) :=
  c9_entry_per_interval fxDupShifts 1 "00:30" (some "T") 30 rfl (by decide)

/-- C10 counterexample: two runs on the same events differing only in the
player directory produce different relative percentages (the directory's
team assignment drives the `groupby` mean behind `Corsi_rel`). -/
theorem c10_directory_cex :
    (analyze_player_corsi_5v5 fxEvents fxDictA).map (·.Corsi_rel) ≠
      (analyze_player_corsi_5v5 fxEvents fxDictB).map (·.Corsi_rel) := by
  rw [fxAnalyzeA, fxAnalyzeB]
  decide

/-- C10 amended: CF, CA, attempts, percentage and the output order are
independent of the player directory; the directory determines only the
name label, the team label and the relative percentage. -/
theorem c10_core_independent (evs : List EnrichedEvent) (d1 d2 : PlayerDict) :
    (analyze_player_corsi_5v5 evs d1).map finalCore =
      (analyze_player_corsi_5v5 evs d2).map finalCore := by
  unfold analyze_player_corsi_5v5
  have hcompose : ∀ (d : PlayerDict) (rows : List CorsiRow),
      ((sort_values_desc rows).map (addTeamCols (sort_values_desc rows) d)).map finalCore =
        (sort_values_desc rows).map rowCore := by
    intro d rows
    rw [List.map_map]
    rfl
  rw [hcompose, hcompose]
  unfold sort_values_desc
  rw [List.map_reverse, List.map_reverse]
  have hrows : ((aggregateStats (corsi_events evs)).map (mkRow d1)).map rowCore =
      ((aggregateStats (corsi_events evs)).map (mkRow d2)).map rowCore := by
    rw [List.map_map, List.map_map]
    rfl
  exact congrArg List.reverse (map_core_insertionSort _ _ hrows)

end NHLPBP
